import Mathlib

/-!
Shallow embedding of the slot-availability and booking-conflict core of the
Patient-Booking-System repository (TypeScript/Express/MongoDB).

Conventions of the embedding:
* Timestamps are epoch milliseconds (Int), the value of Date.getTime().
  The source stores times as Date.toISOString() strings and compares them
  with MongoDB string comparison; for normalized ISO-8601 UTC strings of
  equal length, lexicographic order coincides with chronological order, so
  string comparisons are modeled as Int comparisons.
* A MongoDB collection is a list of documents; findOne is List.find?,
  a $in/filter query is List.filter / List.any, updateOne updates the
  first matching document (ids are unique in the store).
* Statuses are the raw strings used by the source ("pending", "confirmed",
  "completed", "cancelled").
* setHours(h, m, 0, 0) on a date is modeled as midnight-of-that-date plus
  h hours and m minutes (DST shifts inside a day are not modeled).
-/

namespace Booking

/-- Appointment document as stored in the "appointments" collection
(fields used by the handlers in server/routes; times in epoch ms). -/
structure Appointment where
  id : String
  providerId : String
  serviceId : String
  patientName : String
  patientEmail : String
  patientPhone : String
  startTime : Int
  endTime : Int
  status : String
  createdAt : Int
  updatedAt : Int
  rescheduleReason : Option String
  reminderSent : Bool
deriving Repr, DecidableEq

/-- TimeSlot returned by the slots route; the source always sets
isAvailable to true on generated slots. -/
structure TimeSlot where
  startTime : Int
  endTime : Int
  isAvailable : Bool
deriving Repr, DecidableEq

/-- One businessHours entry of an availability document. The source keeps
startTime/endTime as "HH:MM" strings and splits them into numbers in
slots.ts lines 60-61; the embedding carries the parsed hour/minute pairs. -/
structure BusinessHours where
  dayOfWeek : Nat
  isOpen : Bool
  startHour : Int
  startMin : Int
  endHour : Int
  endMin : Int
deriving Repr, DecidableEq

/-- Availability document of the "availability" collection (a missing
blockedDates field is modeled as the empty list). -/
structure Availability where
  providerId : String
  businessHours : List BusinessHours
  blockedDates : List String
deriving Repr, DecidableEq

/-- Status filter used by every conflict / reminder query:
status ∈ {"confirmed", "pending"}. -/
def isActiveStatus (s : String) : Bool :=
  s == "confirmed" || s == "pending"

/-- Half-open interval overlap test used by the slot generator
(slots.ts line 78: slotStart < aptEnd && slotEnd > aptStart) and, with the
roles of the two intervals swapped, by the booking/reschedule conflict
queries (startTime $lt newEnd, endTime $gt newStart). -/
def overlaps (aStart aEnd bStart bEnd : Int) : Bool :=
  decide (aStart < bEnd) && decide (aEnd > bStart)

/-- Appointment fetch of slots.ts lines 35-42: appointments of the
provider whose startTime lies inside the calendar day
[startOfDay, endOfDay] and whose status is confirmed or pending.
Note that the query ranges over startTime only, not over the whole
appointment interval. -/
def bookedFor (appts : List Appointment) (providerId : String)
    (startOfDay endOfDay : Int) : List Appointment :=
  appts.filter (fun a =>
    a.providerId == providerId &&
    decide (startOfDay ≤ a.startTime) && decide (a.startTime ≤ endOfDay) &&
    isActiveStatus a.status)

/-- While loop of slots.ts lines 68-90, fuel-indexed: starting at cursor,
while cursor + durMs ≤ dayEnd, emit the candidate slot
[cursor, cursor + durMs) unless it overlaps a fetched appointment, then
advance the cursor by durMs. A result of none means the fuel was exhausted
with the loop still running (the source loop has no other exit). -/
def slotLoop (durMs dayEnd : Int) (booked : List Appointment) :
    Nat → Int → Option (List TimeSlot)
  | 0, _ => none
  | fuel + 1, cursor =>
    if cursor + durMs ≤ dayEnd then
      match slotLoop durMs dayEnd booked fuel (cursor + durMs) with
      | none => none
      | some rest =>
        some (if booked.any (fun apt =>
                overlaps cursor (cursor + durMs) apt.startTime apt.endTime)
              then rest
              else ⟨cursor, cursor + durMs, true⟩ :: rest)
    else
      some []

/-- Result of the GET /api/slots handler (the 400 missing-parameter branch
is outside the model: the embedding always receives all three parameters). -/
inductive SlotsResult where
  | notFound
  | ok (slots : List TimeSlot)
deriving Repr, DecidableEq

/-- getAvailableSlots of server/routes/slots.ts. Inputs derived from the
request date are passed explicitly: dateMidnight is the epoch ms of the
local midnight of the selected date (setHours(0,0,0,0)), dayOfWeek its
getDay() value, dateString the ISO calendar-date string. The random
sort of line 93 is modeled by the shuffle parameter (the JS sort with a
random comparator always returns some rearrangement of the same list).
The fuel bounds the while loop; none means the loop did not finish. -/
def getAvailableSlots (appts : List Appointment)
    (availabilities : List Availability) (providerId : String)
    (dateMidnight : Int) (dayOfWeek : Nat) (dateString : String)
    (durationMinutes : Int) (shuffle : List TimeSlot → List TimeSlot)
    (fuel : Nat) : Option SlotsResult :=
  match availabilities.find? (fun av => av.providerId == providerId) with
  | none => some .notFound
  | some availability =>
    match availability.businessHours.find? (fun bh => bh.dayOfWeek == dayOfWeek) with
    | none => some (.ok [])
    | some businessHours =>
      if !businessHours.isOpen then some (.ok [])
      else if availability.blockedDates.contains dateString then some (.ok [])
      else
        match slotLoop (durationMinutes * 60000)
            (dateMidnight + businessHours.endHour * 3600000 + businessHours.endMin * 60000)
            (bookedFor appts providerId dateMidnight (dateMidnight + 86399999))
            fuel
            (dateMidnight + businessHours.startHour * 3600000 + businessHours.startMin * 60000) with
        | none => none
        | some allSlots => some (.ok ((shuffle allSlots).take 8))

/-- Whitespace class of the JS regex escape used by the validators
(the common ASCII cases; exotic Unicode spaces are not modeled). -/
def isJsSpace (c : Char) : Bool :=
  c == ' ' || c == '\t' || c == '\n' || c == '\r' || c == '\x0b' || c == '\x0c'

/-- validateNotEmpty of server errorHandler: passes when the value is a
non-empty string whose trim is non-empty, i.e. it has a non-space char. -/
def validateNotEmptyOk (s : String) : Bool :=
  !(s.data.all isJsSpace)

/-- Email test of the errorHandler regex matching one run of
non-space-non-at characters, an at sign, then a dot with at least one such
character on each side: no whitespace, exactly one at sign not in first
position, and after it a dot that is neither first nor last. -/
def validateEmail (email : String) : Bool :=
  let cs := email.data
  let rest := (cs.dropWhile (fun c => c != '@')).drop 1
  cs.all (fun c => !(isJsSpace c)) &&
  cs.count '@' == 1 &&
  !(cs.takeWhile (fun c => c != '@')).isEmpty &&
  (rest.drop 1).dropLast.contains '.'

/-- Phone test of the errorHandler: every character is a digit, whitespace
or one of - + ( ), the string is non-empty, and it has at least 10 digits. -/
def validatePhone (phone : String) : Bool :=
  phone.data.all (fun c => c.isDigit || isJsSpace c ||
    c == '-' || c == '+' || c == '(' || c == ')') &&
  !phone.data.isEmpty &&
  decide (10 ≤ (phone.data.filter Char.isDigit).length)

/-- Error payload of an AppError thrown by the handlers
(machine-readable code, message, HTTP status). -/
structure ApiError where
  code : String
  message : String
  statusCode : Nat
deriving Repr, DecidableEq

/-- Outcome of POST /api/appointments: 201 with the inserted id, or an
AppError (400 validation, 409 double booking). -/
inductive BookOutcome where
  | created (appointmentId : String)
  | err (e : ApiError)
deriving Repr, DecidableEq

/-- Body of a booking request. startTime/endTime carry the epoch ms of the
parsed ISO strings; the string-level validateNotEmpty checks on the two
time fields of the source always pass for a request that parsed, so they
are not repeated here. -/
structure BookRequest where
  patientName : String
  patientEmail : String
  patientPhone : String
  serviceId : String
  providerId : String
  startTime : Int
  endTime : Int
deriving Repr, DecidableEq

/-- bookAppointment of server/routes/appointments.ts: field validations in
source order, then validateDateRange (end after start, then not in the
past), then the double-booking findOne on the provider's confirmed/pending
appointments with existingStart < newEnd and existingEnd > newStart; only
when no conflict matches is the new document inserted with status pending.
newId stands for the ObjectId minted by insertOne. -/
def bookAppointment (now : Int) (newId : String) (appts : List Appointment)
    (req : BookRequest) : BookOutcome × List Appointment :=
  if !validateNotEmptyOk req.patientName then
    (.err ⟨"MISSING_REQUIRED_FIELD", "Patient name is required", 400⟩, appts)
  else if !validateNotEmptyOk req.patientEmail then
    (.err ⟨"MISSING_REQUIRED_FIELD", "Patient email is required", 400⟩, appts)
  else if !validateNotEmptyOk req.patientPhone then
    (.err ⟨"MISSING_REQUIRED_FIELD", "Patient phone is required", 400⟩, appts)
  else if !validateNotEmptyOk req.serviceId then
    (.err ⟨"MISSING_REQUIRED_FIELD", "Service ID is required", 400⟩, appts)
  else if !validateNotEmptyOk req.providerId then
    (.err ⟨"MISSING_REQUIRED_FIELD", "Provider ID is required", 400⟩, appts)
  else if !validateEmail req.patientEmail then
    (.err ⟨"INVALID_EMAIL", "Patient email is not valid", 400⟩, appts)
  else if !validatePhone req.patientPhone then
    (.err ⟨"INVALID_PHONE", "Patient phone must be a valid phone number", 400⟩, appts)
  else if req.startTime ≥ req.endTime then
    (.err ⟨"INVALID_INPUT", "End time must be after start time", 400⟩, appts)
  else if req.startTime < now then
    (.err ⟨"INVALID_INPUT", "Appointment cannot be scheduled in the past", 400⟩, appts)
  else if appts.any (fun a => a.providerId == req.providerId &&
      isActiveStatus a.status &&
      overlaps a.startTime a.endTime req.startTime req.endTime) then
    (.err ⟨"DOUBLE_BOOKING",
      "This time slot is no longer available. Please select another slot.", 409⟩, appts)
  else
    let appointment : Appointment :=
      { id := newId, providerId := req.providerId, serviceId := req.serviceId,
        patientName := req.patientName, patientEmail := req.patientEmail,
        patientPhone := req.patientPhone, startTime := req.startTime,
        endTime := req.endTime, status := "pending", createdAt := now,
        updatedAt := now, rescheduleReason := none, reminderSent := false }
    (.created newId, appts ++ [appointment])

/-- MongoDB updateOne semantics on a list store: rewrite the first document
matching the filter, keep everything else. -/
def updateFirst (p : α → Bool) (f : α → α) : List α → List α
  | [] => []
  | a :: as => if p a then f a :: as else a :: updateFirst p f as

/-- The $set document of a successful reschedule: new start/end, a fresh
updatedAt, and rescheduleReason only when the request carried a truthy
(non-empty) reason. -/
def applyReschedule (newStartTime newEndTime now : Int) (reason : Option String)
    (a : Appointment) : Appointment :=
  { a with startTime := newStartTime, endTime := newEndTime, updatedAt := now,
           rescheduleReason :=
             match reason with
             | some r => if r == "" then a.rescheduleReason else some r
             | none => a.rescheduleReason }

/-- Outcome of PATCH .../reschedule (the provider-ownership 403 branch is
outside the model: the embedding is the admin/staff call path). -/
inductive RescheduleOutcome where
  | notFound
  | conflict
  | ok
deriving Repr, DecidableEq

/-- rescheduleAppointment of the admin routes: find the appointment, run
the conflict findOne excluding the appointment itself (_id $ne) over the
provider's confirmed/pending appointments against the new interval, and on
success set startTime, endTime, updatedAt and, when the reason is truthy
(present and non-empty), rescheduleReason. -/
def rescheduleAppointment (now : Int) (appts : List Appointment)
    (appointmentId : String) (newStartTime newEndTime : Int)
    (reason : Option String) : RescheduleOutcome × List Appointment :=
  match appts.find? (fun a => a.id == appointmentId) with
  | none => (.notFound, appts)
  | some appointment =>
    match appts.find? (fun a => !(a.id == appointmentId) &&
        a.providerId == appointment.providerId &&
        isActiveStatus a.status &&
        overlaps a.startTime a.endTime newStartTime newEndTime) with
    | some _ => (.conflict, appts)
    | none =>
      (.ok, updateFirst (fun a => a.id == appointmentId)
        (applyReschedule newStartTime newEndTime now reason) appts)

/-- Combined state seen by the admin routes and the reminder scheduler:
the appointments collection plus the module-level scheduledReminders map
(key "appointmentId_sendTimeMs" to the armed timer's fire time). -/
structure SystemState where
  appointments : List Appointment
  scheduledReminders : List (String × Int)
deriving Repr, DecidableEq

/-- Outcome of PATCH .../status (403 ownership branch outside the model). -/
inductive UpdateOutcome where
  | invalidStatus
  | notFound
  | ok
deriving Repr, DecidableEq

/-- The $set document of a status update: the new status and a fresh
updatedAt. -/
def applyStatusUpdate (status : String) (now : Int) (a : Appointment) :
    Appointment :=
  { a with status := status, updatedAt := now }

/-- updateAppointmentStatus of the admin routes: validate the status
string, find the appointment, and set status and updatedAt on it. The
source body never touches the scheduler, so scheduledReminders is carried
through unchanged. -/
def updateAppointmentStatus (now : Int) (st : SystemState)
    (appointmentId : String) (status : String) : UpdateOutcome × SystemState :=
  if !(["pending", "confirmed", "completed", "cancelled"].contains status) then
    (.invalidStatus, st)
  else
    match st.appointments.find? (fun a => a.id == appointmentId) with
    | none => (.notFound, st)
    | some _ =>
      (.ok, ⟨updateFirst (fun a => a.id == appointmentId)
        (applyStatusUpdate status now) st.appointments, st.scheduledReminders⟩)

/-- cancelReminder of the scheduler module: clear and drop every armed
timer whose key starts with the appointment id. Exported by the source but
never invoked by any route handler. -/
def cancelReminder (st : SystemState) (appointmentId : String) : SystemState :=
  let kept := st.scheduledReminders.filter
    (fun kv => !(appointmentId.data.isPrefixOf kv.1.data))
  { st with scheduledReminders := kept }

/-- Appointment selection of the scheduler's periodic sweep
(checkDueReminders): startTime within [now, windowEnd], status confirmed
or pending, reminderSent not true; windowEnd is now plus the configured
look-ahead. -/
def dueReminderSelection (now windowEnd : Int) (appts : List Appointment) :
    List Appointment :=
  appts.filter (fun a =>
    decide (now ≤ a.startTime) && decide (a.startTime ≤ windowEnd) &&
    isActiveStatus a.status && !a.reminderSent)

/-- Provider availability fixture: open 09:00-17:00 on weekday 1, no
blocked dates. -/
def sampleAvailability : Availability := ⟨"p1", [⟨1, true, 9, 0, 17, 0⟩], []⟩

/-- Confirmed appointment of provider p1 starting the previous day at
23:00 and running to 10:00 of the requested day (times relative to the
requested day's midnight at 0). -/
def crossMidnightAppt : Appointment :=
  ⟨"b1", "p1", "s1", "Pat", "p@q.r", "0123456789", -3600000, 36000000,
   "confirmed", 0, 0, none, false⟩

/-- Confirmed appointment of provider p1 from 10:00 to 11:00 of the
requested day. -/
def middayAppt : Appointment :=
  ⟨"b2", "p1", "s1", "Pat", "p@q.r", "0123456789", 36000000, 39600000,
   "confirmed", 0, 0, none, false⟩

/-- Well-formed booking request fixture used by the concrete instances. -/
def sampleReq : BookRequest := ⟨"Jo", "a@b.c", "0123456789", "s1", "p1", 100, 200⟩

/-- Confirmed appointment of provider p1 overlapping the interval of
sampleReq. -/
def overlappingAppt : Appointment :=
  ⟨"e1", "p1", "s1", "Ann", "a@b.c", "0123456789", 150, 250,
   "confirmed", 0, 0, none, false⟩

/-- Appointment fixture for the reschedule properties: confirmed, provider
p1, interval 100-200, last updated at 7. -/
def reschedFixture : Appointment :=
  ⟨"a1", "p1", "s1", "Pat", "a@b.c", "0123456789", 100, 200,
   "confirmed", 0, 7, none, false⟩

/-- System state fixture for the cancellation properties: one confirmed
appointment a1 starting at 500 and one armed timer keyed by it. -/
def cancelFixture : SystemState :=
  ⟨[⟨"a1", "p1", "s1", "Pat", "a@b.c", "0123456789", 500, 600,
     "confirmed", 0, 0, none, false⟩],
   [("a1_100", 100)]⟩

/-- Soundness of the slot walk: with a nonnegative step, every slot of a
terminating run starts at or after the cursor, spans exactly durMs, ends
inside the window, and overlaps no fetched appointment. -/
theorem slotLoop_mem_spec (durMs dayEnd : Int) (booked : List Appointment)
    (hd : 0 ≤ durMs) :
    ∀ (fuel : Nat) (cursor : Int) (l : List TimeSlot),
      slotLoop durMs dayEnd booked fuel cursor = some l →
      ∀ s ∈ l, cursor ≤ s.startTime ∧ s.endTime = s.startTime + durMs ∧
        s.endTime ≤ dayEnd ∧
        ∀ a ∈ booked, overlaps s.startTime s.endTime a.startTime a.endTime = false := by
  intro fuel
  induction fuel with
  | zero => intro cursor l h; simp [slotLoop] at h
  | succ n ih =>
    intro cursor l h
    rw [slotLoop] at h
    split at h
    · next hg =>
      cases hrec : slotLoop durMs dayEnd booked n (cursor + durMs) with
      | none => rw [hrec] at h; simp at h
      | some rest =>
        rw [hrec] at h
        simp only [Option.some.injEq] at h
        by_cases hc : (booked.any fun apt =>
            overlaps cursor (cursor + durMs) apt.startTime apt.endTime) = true
        · rw [if_pos hc] at h
          subst h
          intro s hs
          obtain ⟨h1, h2, h3, h4⟩ := ih (cursor + durMs) rest hrec s hs
          exact ⟨by linarith, h2, h3, h4⟩
        · rw [if_neg hc] at h
          subst h
          intro s hs
          rcases List.mem_cons.mp hs with hEq | hTail
          · subst hEq
            refine ⟨le_refl _, rfl, hg, ?_⟩
            intro a ha
            by_contra hov
            have hov' : overlaps cursor (cursor + durMs) a.startTime a.endTime = true := by
              revert hov
              cases overlaps cursor (cursor + durMs) a.startTime a.endTime <;> simp
            exact hc (List.any_eq_true.mpr ⟨a, ha, hov'⟩)
          · obtain ⟨h1, h2, h3, h4⟩ := ih (cursor + durMs) rest hrec s hTail
            exact ⟨by linarith, h2, h3, h4⟩
    · next hg =>
      simp only [Option.some.injEq] at h
      subst h
      intro s hs
      simp at hs

/-- Termination of the slot walk for a positive step: fuel exceeding the
window width in ms is enough for the loop to finish. -/
theorem slotLoop_isSome_of_pos (durMs dayEnd : Int) (booked : List Appointment)
    (hd : 1 ≤ durMs) :
    ∀ (fuel : Nat) (cursor : Int), (dayEnd - cursor).toNat < fuel →
      (slotLoop durMs dayEnd booked fuel cursor).isSome = true := by
  intro fuel
  induction fuel with
  | zero => intro cursor h; omega
  | succ n ih =>
    intro cursor hlt
    rw [slotLoop]
    split
    · next hg =>
      have hn : (dayEnd - (cursor + durMs)).toNat < n := by omega
      have hrec := ih (cursor + durMs) hn
      cases hrec' : slotLoop durMs dayEnd booked n (cursor + durMs) with
      | none => simp [hrec'] at hrec
      | some rest => simp
    · simp

/-- Divergence of the slot walk for a nonpositive step: once the loop
guard holds it holds forever, so no amount of fuel finishes the loop. -/
theorem slotLoop_none_of_nonpos (durMs dayEnd : Int) (booked : List Appointment)
    (hd : durMs ≤ 0) :
    ∀ (fuel : Nat) (cursor : Int), cursor + durMs ≤ dayEnd →
      slotLoop durMs dayEnd booked fuel cursor = none := by
  intro fuel
  induction fuel with
  | zero => intro cursor _; rfl
  | succ n ih =>
    intro cursor hg
    rw [slotLoop, if_pos hg, ih (cursor + durMs) (by linarith)]

/-- C8: the interval-overlap predicate shared by the slot generator and
the booking/reschedule conflict guard is symmetric in its two intervals,
and any non-empty interval overlaps itself. -/
theorem overlaps_symm_and_refl (aStart aEnd bStart bEnd : Int) :
    overlaps aStart aEnd bStart bEnd = overlaps bStart bEnd aStart aEnd ∧
    (aStart < aEnd → overlaps aStart aEnd aStart aEnd = true) := by
  constructor
  · rw [overlaps, overlaps, Bool.and_comm]
  · intro h
    simp [overlaps, h]

/-- Concrete instance of the overlap symmetry and reflexivity theorem. -/
theorem overlaps_symm_and_refl_witness :
    overlaps 0 5 3 9 = overlaps 3 9 0 5 ∧ overlaps 0 5 0 5 = true :=
  ⟨(overlaps_symm_and_refl 0 5 3 9).1,
   (overlaps_symm_and_refl 0 5 0 5).2 (by decide)⟩

/-- C10: the duration-step walk of getAvailableSlots terminates whenever
durationMinutes is at least 1 (fuel larger than the ms-width of the open
window always suffices, so the loop is total there), while for
durationMinutes at most 0 with the loop guard initially true the cursor
never passes dayEnd and the loop never finishes. -/
theorem slotLoop_termination (dayEnd : Int) (booked : List Appointment)
    (durationMinutes : Int) :
    (1 ≤ durationMinutes → ∀ (fuel : Nat) (cursor : Int),
      (dayEnd - cursor).toNat < fuel →
      (slotLoop (durationMinutes * 60000) dayEnd booked fuel cursor).isSome = true) ∧
    (durationMinutes ≤ 0 → ∀ (fuel : Nat) (cursor : Int),
      cursor + durationMinutes * 60000 ≤ dayEnd →
      slotLoop (durationMinutes * 60000) dayEnd booked fuel cursor = none) := by
  constructor
  · intro hpos fuel cursor hfuel
    exact slotLoop_isSome_of_pos (durationMinutes * 60000) dayEnd booked
      (by nlinarith) fuel cursor hfuel
  · intro hnp fuel cursor hg
    exact slotLoop_none_of_nonpos (durationMinutes * 60000) dayEnd booked
      (by nlinarith) fuel cursor hg

/-- Concrete instance of the termination theorem: a 1-minute walk over a
one-minute window finishes with enough fuel, and a 0-minute walk never
does. -/
theorem slotLoop_termination_witness :
    (slotLoop (1 * 60000) 60000 [] 60001 0).isSome = true ∧
    slotLoop (0 * 60000) 0 [] 5 0 = none :=
  ⟨(slotLoop_termination 60000 [] 1).1 (by decide) 60001 0 (by decide),
   (slotLoop_termination 0 [] 0).2 (by decide) 5 0 (by decide)⟩

/-- C1 (counterexample): with one confirmed appointment reaching into the
requested day from the previous evening (23:00 to 10:00), the route's
fetch misses it because its startTime is outside the calendar day, and
getAvailableSlots returns the 09:00-10:00 slot even though that slot
overlaps the appointment and the appointment's interval intersects the
day's open window 09:00-17:00. -/
theorem getAvailableSlots_crossmidnight_counterexample :
    getAvailableSlots [crossMidnightAppt] [sampleAvailability] "p1" 0 1
        "2025-01-06" 60 id 20 =
      some (.ok [⟨32400000, 36000000, true⟩, ⟨36000000, 39600000, true⟩,
        ⟨39600000, 43200000, true⟩, ⟨43200000, 46800000, true⟩,
        ⟨46800000, 50400000, true⟩, ⟨50400000, 54000000, true⟩,
        ⟨54000000, 57600000, true⟩, ⟨57600000, 61200000, true⟩]) ∧
    crossMidnightAppt.status = "confirmed" ∧
    overlaps crossMidnightAppt.startTime crossMidnightAppt.endTime
      32400000 61200000 = true ∧
    overlaps 32400000 36000000 crossMidnightAppt.startTime
      crossMidnightAppt.endTime = true := by
  refine ⟨by decide, rfl, by decide, by decide⟩

/-- C1 (amended): every slot returned by getAvailableSlots avoids every
confirmed or pending appointment of the provider whose startTime lies
within the requested calendar day, i.e. exactly the set the route
fetches; this holds for any positive duration and any shuffle that only
rearranges its input. -/
theorem getAvailableSlots_no_overlap_fetched
    (appts : List Appointment) (availabilities : List Availability)
    (providerId : String) (dateMidnight : Int) (dayOfWeek : Nat)
    (dateString : String) (durationMinutes : Int)
    (shuffle : List TimeSlot → List TimeSlot) (fuel : Nat)
    (slots : List TimeSlot)
    (hShuffle : ∀ (l : List TimeSlot) (s : TimeSlot), s ∈ shuffle l → s ∈ l)
    (hDur : 0 < durationMinutes)
    (hRes : getAvailableSlots appts availabilities providerId dateMidnight
      dayOfWeek dateString durationMinutes shuffle fuel = some (.ok slots)) :
    ∀ s ∈ slots, ∀ a ∈ appts, a.providerId = providerId →
      (a.status = "confirmed" ∨ a.status = "pending") →
      dateMidnight ≤ a.startTime → a.startTime ≤ dateMidnight + 86399999 →
      overlaps s.startTime s.endTime a.startTime a.endTime = false := by
  intro s hs a ha hprov hstat h1 h2
  unfold getAvailableSlots at hRes
  split at hRes
  · simp at hRes
  · split at hRes
    · simp only [Option.some.injEq, SlotsResult.ok.injEq] at hRes
      subst hRes
      simp at hs
    · split at hRes
      · simp only [Option.some.injEq, SlotsResult.ok.injEq] at hRes
        subst hRes
        simp at hs
      · split at hRes
        · simp only [Option.some.injEq, SlotsResult.ok.injEq] at hRes
          subst hRes
          simp at hs
        · split at hRes
          · exact absurd hRes (by simp)
          · next allSlots hLoop =>
            simp only [Option.some.injEq, SlotsResult.ok.injEq] at hRes
            subst hRes
            have hsAll : s ∈ allSlots :=
              hShuffle _ _ (List.mem_of_mem_take hs)
            have hspec := slotLoop_mem_spec (durationMinutes * 60000) _ _
              (mul_nonneg hDur.le (by norm_num)) fuel _ allSlots hLoop s hsAll
            obtain ⟨-, -, -, h4⟩ := hspec
            apply h4
            refine List.mem_filter.mpr ⟨ha, ?_⟩
            rcases hstat with hc | hc <;>
              simp [hprov, h1, h2, isActiveStatus, hc]

/-- Concrete instance of the amended no-overlap theorem: with a confirmed
10:00-11:00 appointment inside the day, the returned 09:00-10:00 slot does
not overlap it. -/
theorem getAvailableSlots_no_overlap_fetched_witness :
    overlaps 32400000 36000000 middayAppt.startTime middayAppt.endTime = false :=
  getAvailableSlots_no_overlap_fetched [middayAppt] [sampleAvailability]
    "p1" 0 1 "2025-01-06" 60 id 20
    [⟨32400000, 36000000, true⟩, ⟨39600000, 43200000, true⟩,
     ⟨43200000, 46800000, true⟩, ⟨46800000, 50400000, true⟩,
     ⟨50400000, 54000000, true⟩, ⟨54000000, 57600000, true⟩,
     ⟨57600000, 61200000, true⟩]
    (fun _ _ h => h) (by decide) (by decide)
    ⟨32400000, 36000000, true⟩ (by decide) middayAppt (by decide)
    rfl (Or.inl rfl) (by decide) (by decide)

/-- C5: every returned slot lies inside the open window derived from the
matched weekday's business hours applied to the requested date. -/
theorem getAvailableSlots_within_hours
    (appts : List Appointment) (availabilities : List Availability)
    (providerId : String) (dateMidnight : Int) (dayOfWeek : Nat)
    (dateString : String) (durationMinutes : Int)
    (shuffle : List TimeSlot → List TimeSlot) (fuel : Nat)
    (availability : Availability) (businessHours : BusinessHours)
    (slots : List TimeSlot)
    (hShuffle : ∀ (l : List TimeSlot) (s : TimeSlot), s ∈ shuffle l → s ∈ l)
    (hDur : 0 < durationMinutes)
    (hA : availabilities.find? (fun av => av.providerId == providerId) =
      some availability)
    (hBH : availability.businessHours.find?
      (fun bh => bh.dayOfWeek == dayOfWeek) = some businessHours)
    (hRes : getAvailableSlots appts availabilities providerId dateMidnight
      dayOfWeek dateString durationMinutes shuffle fuel = some (.ok slots)) :
    ∀ s ∈ slots,
      dateMidnight + businessHours.startHour * 3600000 +
        businessHours.startMin * 60000 ≤ s.startTime ∧
      s.endTime ≤ dateMidnight + businessHours.endHour * 3600000 +
        businessHours.endMin * 60000 := by
  intro s hs
  unfold getAvailableSlots at hRes
  simp only [hA, hBH] at hRes
  split at hRes
  · simp only [Option.some.injEq, SlotsResult.ok.injEq] at hRes
    subst hRes
    simp at hs
  · split at hRes
    · simp only [Option.some.injEq, SlotsResult.ok.injEq] at hRes
      subst hRes
      simp at hs
    · split at hRes
      · exact absurd hRes (by simp)
      · next allSlots hLoop =>
        simp only [Option.some.injEq, SlotsResult.ok.injEq] at hRes
        subst hRes
        have hsAll : s ∈ allSlots :=
          hShuffle _ _ (List.mem_of_mem_take hs)
        have hspec := slotLoop_mem_spec (durationMinutes * 60000) _ _
          (mul_nonneg hDur.le (by norm_num)) fuel _ allSlots hLoop s hsAll
        obtain ⟨hge, heq, hle, -⟩ := hspec
        exact ⟨hge, hle⟩

/-- Concrete instance of the within-hours theorem: the first returned slot
of the 09:00-17:00 day lies inside the window. -/
theorem getAvailableSlots_within_hours_witness :
    (0 : Int) + 9 * 3600000 + 0 * 60000 ≤ 32400000 ∧
    (36000000 : Int) ≤ 0 + 17 * 3600000 + 0 * 60000 :=
  getAvailableSlots_within_hours [] [sampleAvailability]
    "p1" 0 1 "2025-01-06" 60 id 20 sampleAvailability ⟨1, true, 9, 0, 17, 0⟩
    [⟨32400000, 36000000, true⟩, ⟨36000000, 39600000, true⟩,
     ⟨39600000, 43200000, true⟩, ⟨43200000, 46800000, true⟩,
     ⟨46800000, 50400000, true⟩, ⟨50400000, 54000000, true⟩,
     ⟨54000000, 57600000, true⟩, ⟨57600000, 61200000, true⟩]
    (fun _ _ h => h) (by decide) (by decide) (by decide) (by decide)
    ⟨32400000, 36000000, true⟩ (by decide)

/-- C4: on an open, unblocked day, when the duration-step walk produces
the candidate list cands, the route returns exactly
min 8 (number of candidates) slots, for any length-preserving shuffle. -/
theorem getAvailableSlots_sample_length
    (appts : List Appointment) (availabilities : List Availability)
    (providerId : String) (dateMidnight : Int) (dayOfWeek : Nat)
    (dateString : String) (durationMinutes : Int)
    (shuffle : List TimeSlot → List TimeSlot) (fuel : Nat)
    (availability : Availability) (businessHours : BusinessHours)
    (cands : List TimeSlot)
    (hLen : ∀ l : List TimeSlot, (shuffle l).length = l.length)
    (hA : availabilities.find? (fun av => av.providerId == providerId) =
      some availability)
    (hBH : availability.businessHours.find?
      (fun bh => bh.dayOfWeek == dayOfWeek) = some businessHours)
    (hOpen : businessHours.isOpen = true)
    (hNB : availability.blockedDates.contains dateString = false)
    (hLoop : slotLoop (durationMinutes * 60000)
      (dateMidnight + businessHours.endHour * 3600000 + businessHours.endMin * 60000)
      (bookedFor appts providerId dateMidnight (dateMidnight + 86399999))
      fuel
      (dateMidnight + businessHours.startHour * 3600000 + businessHours.startMin * 60000) =
      some cands) :
    ∃ slots, getAvailableSlots appts availabilities providerId dateMidnight
        dayOfWeek dateString durationMinutes shuffle fuel = some (.ok slots) ∧
      slots.length = min 8 cands.length := by
  refine ⟨(shuffle cands).take 8, ?_, ?_⟩
  · unfold getAvailableSlots
    simp only [hA, hBH]
    have hNB' : dateString ∉ availability.blockedDates := by simpa using hNB
    simp [hOpen, hNB', hLoop]
  · rw [List.length_take, hLen]

/-- Concrete instance of the sample-length theorem: a two-candidate day
returns both slots, of length min 8 2. -/
theorem getAvailableSlots_sample_length_witness :
    ∃ slots, getAvailableSlots [] [⟨"p2", [⟨1, true, 9, 0, 11, 0⟩], []⟩]
        "p2" 0 1 "2025-01-06" 60 id 20 = some (.ok slots) ∧
      slots.length = min 8
        [(⟨32400000, 36000000, true⟩ : TimeSlot),
         ⟨36000000, 39600000, true⟩].length :=
  getAvailableSlots_sample_length [] [⟨"p2", [⟨1, true, 9, 0, 11, 0⟩], []⟩]
    "p2" 0 1 "2025-01-06" 60 id 20 ⟨"p2", [⟨1, true, 9, 0, 11, 0⟩], []⟩
    ⟨1, true, 9, 0, 11, 0⟩
    [⟨32400000, 36000000, true⟩, ⟨36000000, 39600000, true⟩]
    (fun _ => rfl) (by decide) (by decide) (by decide) (by decide) (by decide)

/-- C2: for a request that passes every field validation and has a valid
future interval, bookAppointment returns the 409 DOUBLE_BOOKING error if
and only if some confirmed or pending appointment of the same provider
satisfies existingStart < newEnd and existingEnd > newStart; and whenever
it returns that conflict, the appointments collection is unchanged. -/
theorem bookAppointment_conflict_iff
    (now : Int) (newId : String) (appts : List Appointment) (req : BookRequest)
    (hName : validateNotEmptyOk req.patientName = true)
    (hEmailNE : validateNotEmptyOk req.patientEmail = true)
    (hPhoneNE : validateNotEmptyOk req.patientPhone = true)
    (hSvc : validateNotEmptyOk req.serviceId = true)
    (hProv : validateNotEmptyOk req.providerId = true)
    (hEmail : validateEmail req.patientEmail = true)
    (hPhone : validatePhone req.patientPhone = true)
    (hRange : req.startTime < req.endTime)
    (hFuture : now ≤ req.startTime) :
    ((bookAppointment now newId appts req).1 =
        .err ⟨"DOUBLE_BOOKING",
          "This time slot is no longer available. Please select another slot.",
          409⟩ ↔
      ∃ a ∈ appts, a.providerId = req.providerId ∧
        (a.status = "confirmed" ∨ a.status = "pending") ∧
        a.startTime < req.endTime ∧ req.startTime < a.endTime) ∧
    ((bookAppointment now newId appts req).1 =
        .err ⟨"DOUBLE_BOOKING",
          "This time slot is no longer available. Please select another slot.",
          409⟩ →
      (bookAppointment now newId appts req).2 = appts) := by
  have h1 : ¬ (req.startTime ≥ req.endTime) := not_le.mpr hRange
  have h2 : ¬ (req.startTime < now) := not_lt.mpr hFuture
  unfold bookAppointment
  simp only [hName, hEmailNE, hPhoneNE, hSvc, hProv, hEmail, hPhone,
    Bool.not_true, Bool.false_eq_true, if_false, if_neg h1, if_neg h2]
  by_cases hAny : (appts.any fun a => a.providerId == req.providerId &&
      isActiveStatus a.status &&
      overlaps a.startTime a.endTime req.startTime req.endTime) = true
  · rw [if_pos hAny]
    have hex : ∃ a ∈ appts, a.providerId = req.providerId ∧
        (a.status = "confirmed" ∨ a.status = "pending") ∧
        a.startTime < req.endTime ∧ req.startTime < a.endTime := by
      obtain ⟨a, ha, hcond⟩ := List.any_eq_true.mp hAny
      simp only [Bool.and_eq_true, beq_iff_eq, isActiveStatus, overlaps,
        decide_eq_true_eq, Bool.or_eq_true, gt_iff_lt] at hcond
      exact ⟨a, ha, hcond.1.1, hcond.1.2, hcond.2.1, hcond.2.2⟩
    exact ⟨iff_of_true rfl hex, fun _ => rfl⟩
  · rw [if_neg hAny]
    constructor
    · apply iff_of_false
      · simp
      · rintro ⟨a, ha, hp, hst, ho1, ho2⟩
        apply hAny
        refine List.any_eq_true.mpr ⟨a, ha, ?_⟩
        rcases hst with hc | hc <;>
          simp [hp, hc, isActiveStatus, overlaps, ho1, ho2]
    · intro hcontr
      exact absurd hcontr (by simp)

/-- Concrete instance of the conflict iff: an overlapping confirmed
appointment makes the booking fail with 409 and leaves the store as it
was. -/
theorem bookAppointment_conflict_iff_witness :
    (bookAppointment 0 "n1" [overlappingAppt] sampleReq).1 =
      .err ⟨"DOUBLE_BOOKING",
        "This time slot is no longer available. Please select another slot.",
        409⟩ ∧
    (bookAppointment 0 "n1" [overlappingAppt] sampleReq).2 =
      [overlappingAppt] := by
  have h := bookAppointment_conflict_iff 0 "n1" [overlappingAppt] sampleReq
    (by decide) (by decide) (by decide) (by decide) (by decide)
    (by decide) (by decide) (by decide) (by decide)
  have hex : ∃ a ∈ [overlappingAppt], a.providerId = sampleReq.providerId ∧
      (a.status = "confirmed" ∨ a.status = "pending") ∧
      a.startTime < sampleReq.endTime ∧ sampleReq.startTime < a.endTime :=
    ⟨overlappingAppt, by simp, rfl, Or.inl rfl, by decide, by decide⟩
  exact ⟨h.1.mpr hex, h.2 (h.1.mpr hex)⟩

/-- C9: for a request passing the field-format validations, a start before
now (with a non-empty interval) is rejected with 400 INVALID_INPUT and the
past-scheduling message, and a start at or after the end is rejected with
400 INVALID_INPUT and the range message; in both cases nothing is
inserted, whatever the current appointments are (so the rejection happens
before the conflict check). -/
theorem bookAppointment_rejects_invalid_times
    (now : Int) (newId : String) (appts : List Appointment) (req : BookRequest)
    (hName : validateNotEmptyOk req.patientName = true)
    (hEmailNE : validateNotEmptyOk req.patientEmail = true)
    (hPhoneNE : validateNotEmptyOk req.patientPhone = true)
    (hSvc : validateNotEmptyOk req.serviceId = true)
    (hProv : validateNotEmptyOk req.providerId = true)
    (hEmail : validateEmail req.patientEmail = true)
    (hPhone : validatePhone req.patientPhone = true) :
    (req.startTime < now → req.startTime < req.endTime →
      (bookAppointment now newId appts req).1 =
        .err ⟨"INVALID_INPUT", "Appointment cannot be scheduled in the past", 400⟩ ∧
      (bookAppointment now newId appts req).2 = appts) ∧
    (req.endTime ≤ req.startTime →
      (bookAppointment now newId appts req).1 =
        .err ⟨"INVALID_INPUT", "End time must be after start time", 400⟩ ∧
      (bookAppointment now newId appts req).2 = appts) := by
  constructor
  · intro hPast hR
    have h1 : ¬ (req.startTime ≥ req.endTime) := not_le.mpr hR
    unfold bookAppointment
    simp [hName, hEmailNE, hPhoneNE, hSvc, hProv, hEmail, hPhone, h1, hPast]
  · intro hR
    unfold bookAppointment
    simp [hName, hEmailNE, hPhoneNE, hSvc, hProv, hEmail, hPhone, hR]

/-- Concrete instance of the invalid-time rejections: a past start and an
empty interval are both rejected with 400 and no insertion. -/
theorem bookAppointment_rejects_invalid_times_witness :
    ((bookAppointment 1000 "n1" [] sampleReq).1 =
        .err ⟨"INVALID_INPUT", "Appointment cannot be scheduled in the past", 400⟩ ∧
      (bookAppointment 1000 "n1" [] sampleReq).2 = []) ∧
    ((bookAppointment 0 "n2" [] ⟨"Jo", "a@b.c", "0123456789", "s1", "p1", 200, 200⟩).1 =
        .err ⟨"INVALID_INPUT", "End time must be after start time", 400⟩ ∧
      (bookAppointment 0 "n2" []
        ⟨"Jo", "a@b.c", "0123456789", "s1", "p1", 200, 200⟩).2 = []) :=
  ⟨(bookAppointment_rejects_invalid_times 1000 "n1" [] sampleReq
      (by decide) (by decide) (by decide) (by decide) (by decide)
      (by decide) (by decide)).1 (by decide) (by decide),
   (bookAppointment_rejects_invalid_times 0 "n2" []
      ⟨"Jo", "a@b.c", "0123456789", "s1", "p1", 200, 200⟩
      (by decide) (by decide) (by decide) (by decide) (by decide)
      (by decide) (by decide)).2 (by decide)⟩

/-- Each position of updateFirst either keeps the original element or
holds its image under f, the latter only for an element matching p. -/
theorem updateFirst_forall₂ (p : α → Bool) (f : α → α) :
    ∀ l : List α,
      List.Forall₂ (fun a b => b = a ∨ (p a = true ∧ b = f a)) l
        (updateFirst p f l) := by
  intro l
  induction l with
  | nil => exact List.Forall₂.nil
  | cons a as ih =>
    rw [updateFirst]
    by_cases h : p a = true
    · rw [if_pos h]
      exact List.Forall₂.cons (Or.inr ⟨h, rfl⟩)
        (List.forall₂_same.mpr fun x _ => Or.inl rfl)
    · rw [if_neg h]
      exact List.Forall₂.cons (Or.inl rfl) ih

/-- When at most one element matches p, any member of updateFirst that
still matches p is the f-image of a matching original element. -/
theorem updateFirst_mem_of_countP_le_one (p : α → Bool) (f : α → α) :
    ∀ l : List α, l.countP p ≤ 1 → ∀ b ∈ updateFirst p f l, p b = true →
      ∃ a, a ∈ l ∧ p a = true ∧ b = f a := by
  intro l
  induction l with
  | nil => intro _ b hb; simp [updateFirst] at hb
  | cons a as ih =>
    intro hcount b hb hpb
    rw [updateFirst] at hb
    by_cases hpa : p a = true
    · rw [if_pos hpa] at hb
      rcases List.mem_cons.mp hb with rfl | htail
      · exact ⟨a, List.mem_cons_self a as, hpa, rfl⟩
      · exfalso
        have hz : as.countP p = 0 := by
          rw [List.countP_cons_of_pos _ _ hpa] at hcount
          omega
        exact (List.countP_eq_zero.mp hz) b htail hpb
    · rw [if_neg hpa] at hb
      rcases List.mem_cons.mp hb with rfl | htail
      · exact absurd hpb hpa
      · have hc : as.countP p ≤ 1 := by
          rwa [List.countP_cons_of_neg _ _ hpa] at hcount
        obtain ⟨x, hx, hpx, hbx⟩ := ih hc b htail hpb
        exact ⟨x, List.mem_cons_of_mem a hx, hpx, hbx⟩

/-- C6: rescheduling an existing appointment to an interval that overlaps
no other confirmed/pending appointment of its provider succeeds with ok
even if the new interval overlaps the appointment's own prior interval:
the conflict query excludes the appointment being moved. -/
theorem rescheduleAppointment_self_exclusion
    (now : Int) (appts : List Appointment) (appointmentId : String)
    (newStartTime newEndTime : Int) (reason : Option String)
    (X : Appointment)
    (hFind : appts.find? (fun a => a.id == appointmentId) = some X)
    (hOthers : ∀ a ∈ appts, a.id ≠ appointmentId →
      ¬(a.providerId = X.providerId ∧
        (a.status = "confirmed" ∨ a.status = "pending") ∧
        a.startTime < newEndTime ∧ newStartTime < a.endTime)) :
    (rescheduleAppointment now appts appointmentId newStartTime newEndTime
      reason).1 = .ok := by
  unfold rescheduleAppointment
  simp only [hFind]
  have hNone : appts.find? (fun a => !(a.id == appointmentId) &&
      a.providerId == X.providerId && isActiveStatus a.status &&
      overlaps a.startTime a.endTime newStartTime newEndTime) = none := by
    rw [List.find?_eq_none]
    intro a ha hcond
    simp only [Bool.and_eq_true, Bool.not_eq_true', beq_eq_false_iff_ne,
      beq_iff_eq, isActiveStatus, overlaps, decide_eq_true_eq,
      Bool.or_eq_true, gt_iff_lt] at hcond
    exact hOthers a ha hcond.1.1.1 ⟨hcond.1.1.2, hcond.1.2, hcond.2⟩
  simp only [hNone]

/-- Concrete instance of the self-exclusion theorem: moving the only
appointment onto an interval overlapping its own prior interval
succeeds. -/
theorem rescheduleAppointment_self_exclusion_witness :
    (rescheduleAppointment 99 [reschedFixture] "a1" 150 250 none).1 = .ok :=
  rescheduleAppointment_self_exclusion 99 [reschedFixture] "a1" 150 250 none
    reschedFixture (by decide) (by decide)

/-- C7 (counterexample): a successful reschedule also rewrites the
updatedAt field, so a field other than the start/end timestamps and the
optional reschedule reason does change: an appointment last updated at 7,
rescheduled at time 99, ends up with updatedAt 99. -/
theorem rescheduleAppointment_updatedAt_counterexample :
    reschedFixture.updatedAt = 7 ∧
    (rescheduleAppointment 99 [reschedFixture] "a1" 150 250 none).1 = .ok ∧
    (rescheduleAppointment 99 [reschedFixture] "a1" 150 250 none).2.map
      (fun a => a.updatedAt) = [99] :=
  ⟨rfl, by decide, by decide⟩

/-- C7 (amended): a successful reschedule changes only startTime, endTime,
updatedAt and optionally rescheduleReason of the targeted appointment:
its id, provider, service, patient fields, status, createdAt and
reminderSent are unchanged, and every appointment with a different id is
untouched. -/
theorem rescheduleAppointment_frame
    (now : Int) (appts : List Appointment) (appointmentId : String)
    (newStartTime newEndTime : Int) (reason : Option String)
    (hOk : (rescheduleAppointment now appts appointmentId newStartTime
      newEndTime reason).1 = .ok) :
    List.Forall₂ (fun a b =>
      b.id = a.id ∧ b.providerId = a.providerId ∧ b.serviceId = a.serviceId ∧
      b.patientName = a.patientName ∧ b.patientEmail = a.patientEmail ∧
      b.patientPhone = a.patientPhone ∧ b.status = a.status ∧
      b.createdAt = a.createdAt ∧ b.reminderSent = a.reminderSent ∧
      (a.id ≠ appointmentId → b = a))
      appts
      (rescheduleAppointment now appts appointmentId newStartTime newEndTime
        reason).2 := by
  unfold rescheduleAppointment at hOk ⊢
  cases hFind : appts.find? (fun a => a.id == appointmentId) with
  | none => simp only [hFind] at hOk; simp at hOk
  | some X =>
    simp only [hFind] at hOk ⊢
    cases hConf : appts.find? (fun a => !(a.id == appointmentId) &&
        a.providerId == X.providerId && isActiveStatus a.status &&
        overlaps a.startTime a.endTime newStartTime newEndTime) with
    | some c => simp only [hConf] at hOk; simp at hOk
    | none =>
      simp only [hConf]
      refine List.Forall₂.imp ?_ (updateFirst_forall₂ _ _ appts)
      intro a b hab
      rcases hab with rfl | ⟨hpa, rfl⟩
      · exact ⟨rfl, rfl, rfl, rfl, rfl, rfl, rfl, rfl, rfl, fun _ => rfl⟩
      · refine ⟨rfl, rfl, rfl, rfl, rfl, rfl, rfl, rfl, rfl, fun hne => ?_⟩
        exact absurd (eq_of_beq hpa) hne

/-- Concrete instance of the reschedule frame theorem. -/
theorem rescheduleAppointment_frame_witness :
    List.Forall₂ (fun a b =>
      b.id = a.id ∧ b.providerId = a.providerId ∧ b.serviceId = a.serviceId ∧
      b.patientName = a.patientName ∧ b.patientEmail = a.patientEmail ∧
      b.patientPhone = a.patientPhone ∧ b.status = a.status ∧
      b.createdAt = a.createdAt ∧ b.reminderSent = a.reminderSent ∧
      (a.id ≠ "a1" → b = a))
      [reschedFixture]
      (rescheduleAppointment 99 [reschedFixture] "a1" 150 250 none).2 :=
  rescheduleAppointment_frame 99 [reschedFixture] "a1" 150 250 none (by decide)

/-- C3 (counterexample): cancelling appointment a1 through
updateAppointmentStatus succeeds, yet the scheduler's timer map still
holds an armed timer keyed by a1: the handler never invokes
cancelReminder. -/
theorem updateAppointmentStatus_cancel_counterexample :
    (updateAppointmentStatus 9 cancelFixture "a1" "cancelled").1 = .ok ∧
    (updateAppointmentStatus 9 cancelFixture "a1"
        "cancelled").2.scheduledReminders.any
      (fun kv => "a1".data.isPrefixOf kv.1.data) = true :=
  ⟨by decide, by decide⟩

/-- C3 (amended): after a cancel through updateAppointmentStatus on a
store holding at most one document with that id, the timer map is exactly
what it was before (no timer is cleared), and the periodic sweep's
selection no longer contains the appointment for any scan window, since
its status has left the confirmed/pending set. -/
theorem updateAppointmentStatus_cancel_effects
    (now : Int) (st : SystemState) (appointmentId : String)
    (st' : SystemState)
    (hCount : st.appointments.countP (fun a => a.id == appointmentId) ≤ 1)
    (hRes : updateAppointmentStatus now st appointmentId "cancelled" =
      (.ok, st')) :
    st'.scheduledReminders = st.scheduledReminders ∧
    ∀ (t w : Int), (dueReminderSelection t w st'.appointments).all
      (fun a => !(a.id == appointmentId)) = true := by
  unfold updateAppointmentStatus at hRes
  rw [if_neg (by decide)] at hRes
  cases hFind : st.appointments.find? (fun a => a.id == appointmentId) with
  | none => rw [hFind] at hRes; simp at hRes
  | some Y =>
    rw [hFind] at hRes
    have hst' : st' = ⟨updateFirst (fun a => a.id == appointmentId)
        (applyStatusUpdate "cancelled" now) st.appointments,
        st.scheduledReminders⟩ := by
      have h2 := congrArg Prod.snd hRes
      simpa using h2.symm
    subst hst'
    refine ⟨rfl, ?_⟩
    intro t w
    rw [List.all_eq_true]
    intro a ha
    obtain ⟨haMem, haCond⟩ := List.mem_filter.mp ha
    by_contra hbeq
    have hpa : (a.id == appointmentId) = true := by
      revert hbeq
      cases a.id == appointmentId <;> simp
    obtain ⟨x, -, -, rfl⟩ :=
      updateFirst_mem_of_countP_le_one _ _ st.appointments hCount a haMem hpa
    simp only [Bool.and_eq_true] at haCond
    have : isActiveStatus (applyStatusUpdate "cancelled" now x).status = true :=
      haCond.1.2
    simp [applyStatusUpdate, isActiveStatus] at this

/-- Concrete instance of the cancel-effects theorem: the timer survives
and the sweep selection over the updated store avoids a1. -/
theorem updateAppointmentStatus_cancel_effects_witness :
    (updateAppointmentStatus 9 cancelFixture "a1"
        "cancelled").2.scheduledReminders = cancelFixture.scheduledReminders ∧
    (dueReminderSelection 0 1000
        (updateAppointmentStatus 9 cancelFixture "a1"
          "cancelled").2.appointments).all
      (fun a => !(a.id == "a1")) = true := by
  have h := updateAppointmentStatus_cancel_effects 9 cancelFixture "a1"
    (updateAppointmentStatus 9 cancelFixture "a1" "cancelled").2
    (by decide) (by exact Prod.ext rfl rfl)
  exact ⟨h.1, h.2 0 1000⟩

end Booking
